import Mathlib

/-!
Verification of the ChangeByteCode text-sanitization pipeline.

Python strings are modelled as `List Char` (a Python `str` is a sequence of
Unicode scalar values, which is what `Char` represents).  Each definition below
is a direct translation of the correspondingly named function of the repository
(`bytecode_generator.py`, `bytecode_gui_batch.py`, `bytecode_batch.py`, and the
GUI file `bytecode_batch GUI.py`).  Calls into Python's `unicodedata` module
(Unicode normalization, combining-class lookup) are modelled as explicit oracle
parameters, since the full Unicode database is outside the scope of this
embedding; every theorem that depends on a concrete normalization fact takes
that fact as a hypothesis.
-/

/-- The set of characters stripped by Python's `str.strip()` / `str.lstrip()`
(the Unicode whitespace set used by `str` methods). -/
def pyIsSpace (c : Char) : Bool :=
  decide ((9 ≤ c.toNat ∧ c.toNat ≤ 13) ∨ (28 ≤ c.toNat ∧ c.toNat ≤ 31) ∨ c.toNat = 32 ∨
    c.toNat = 0x85 ∨ c.toNat = 0xA0 ∨ c.toNat = 0x1680 ∨
    (0x2000 ≤ c.toNat ∧ c.toNat ≤ 0x200A) ∨ c.toNat = 0x2028 ∨ c.toNat = 0x2029 ∨
    c.toNat = 0x202F ∨ c.toNat = 0x205F ∨ c.toNat = 0x3000)

/-- Python `s.lstrip()`. -/
def pyLStrip (s : List Char) : List Char := s.dropWhile pyIsSpace

/-- Python `s.strip()`. -/
def pyStrip (s : List Char) : List Char :=
  ((s.dropWhile pyIsSpace).reverse.dropWhile pyIsSpace).reverse

/-- Python `s.upper()` restricted to ASCII case mapping (all strings this
repository compares against are ASCII). -/
def pyUpper (s : String) : String := String.mk (s.toList.map Char.toUpper)

/-- Python `s.lower()` restricted to ASCII case mapping. -/
def pyLower (s : String) : String := String.mk (s.toList.map Char.toLower)

/-- Python `s.replace(str(c), "")`: removing every occurrence of the single
character `c`. -/
def removeChar (c : Char) (s : String) : String :=
  String.mk (s.toList.filter (fun a => a != c))

/-- Python `s.split(sep, 1)` for a single-character separator: the part before
the first occurrence and the part after it. -/
def split_first (sep : Char) (s : List Char) : List Char × List Char :=
  (s.takeWhile (fun c => c != sep), (s.dropWhile (fun c => c != sep)).tail)

/-- The `ZW_BIDI_PATTERN` / `ZERO_WIDTH_BIDI` regex character class
`[​‌‍⁠﻿‎‏‪-‮⁦-⁩]`. -/
def isZWBidi (c : Char) : Bool :=
  decide (c.toNat = 0x200B ∨ c.toNat = 0x200C ∨ c.toNat = 0x200D ∨ c.toNat = 0x2060 ∨
    c.toNat = 0xFEFF ∨ c.toNat = 0x200E ∨ c.toNat = 0x200F ∨
    (0x202A ≤ c.toNat ∧ c.toNat ≤ 0x202E) ∨ (0x2066 ≤ c.toNat ∧ c.toNat ≤ 0x2069))

/-- The `CTRL_PATTERN` / `CTRL` regex character class
`[\x00-\x08\x0B\x0C\x0E-\x1F\x7F-\x9F]`. -/
def isCtrl (c : Char) : Bool :=
  decide (c.toNat ≤ 0x08 ∨ c.toNat = 0x0B ∨ c.toNat = 0x0C ∨
    (0x0E ≤ c.toNat ∧ c.toNat ≤ 0x1F) ∨ (0x7F ≤ c.toNat ∧ c.toNat ≤ 0x9F))

/-- `SMART_PUNCT_MAP` from `bytecode_generator.py`, applied per character as in
`str.translate` (all entries map to one character except the ellipsis). -/
def smart_punct_sub (c : Char) : List Char :=
  if c.toNat = 0x2018 ∨ c.toNat = 0x2019 ∨ c.toNat = 0x2032 then [Char.ofNat 39]
  else if c.toNat = 0x201C ∨ c.toNat = 0x201D ∨ c.toNat = 0x2033 then [Char.ofNat 34]
  else if c.toNat = 0x2012 ∨ c.toNat = 0x2013 ∨ c.toNat = 0x2014 ∨ c.toNat = 0x2212 then ['-']
  else if c.toNat = 0x2026 then ['.', '.', '.']
  else if c.toNat = 0xA0 ∨ c.toNat = 0x2007 ∨ c.toNat = 0x202F then [' ']
  else [c]

/-- `replace_smart_punct` from `bytecode_generator.py`. -/
def replace_smart_punct (s : List Char) : List Char := s.flatMap smart_punct_sub

/-- `SMART_SPACES` translation used by the batch/GUI files (NBSP, figure space
and narrow NBSP become a plain space). -/
def smart_spaces_sub (c : Char) : Char :=
  if c.toNat = 0xA0 ∨ c.toNat = 0x2007 ∨ c.toNat = 0x202F then ' ' else c

/-- `normalize_text` from `bytecode_generator.py`; `norm` is the
`unicodedata.normalize` oracle. -/
def normalize_text (norm : String → List Char → List Char) (s : List Char)
    (form : String) : List Char :=
  if pyUpper form = "NFC" ∨ pyUpper form = "NFD" ∨ pyUpper form = "NFKC" ∨
      pyUpper form = "NFKD" then
    norm (pyUpper form) s
  else s

/-- `strip_zero_width_and_controls` from `bytecode_generator.py`: first delete
the zero-width/BiDi class, then the control class, returning both counts. -/
def strip_zero_width_and_controls (s : List Char) : List Char × Nat × Nat :=
  let s1 := s.filter (fun c => !(isZWBidi c))
  let s2 := s1.filter (fun c => !(isCtrl c))
  (s2, s.length - s1.length, s1.length - s2.length)

/-- The per-character Unicode mathematical-bold mapping (`to_math_bold` /
`_to_math_bold`); `digits` selects the `bytecode_gui_batch.py` variant that
also maps `0`-`9` (the other files map letters only). -/
def bold_char (digits : Bool) (c : Char) : Char :=
  if 65 ≤ c.toNat ∧ c.toNat ≤ 90 then Char.ofNat (0x1D400 + (c.toNat - 65))
  else if 97 ≤ c.toNat ∧ c.toNat ≤ 122 then Char.ofNat (0x1D41A + (c.toNat - 97))
  else if digits ∧ 48 ≤ c.toNat ∧ c.toNat ≤ 57 then Char.ofNat (0x1D7CE + (c.toNat - 48))
  else c

/-- `to_math_bold` from the batch/GUI files. -/
def to_math_bold (digits : Bool) (s : List Char) : List Char := s.map (bold_char digits)

/-- The colon-split/bold/wrap stage shared by every `transform_line` variant
(the code after the cleaning step, `bytecode_batch.py` lines 55-63); this is
the spec's `bold_wrap` (HeaderBoldTransform). -/
def bold_wrap (digits : Bool) (s : List Char) : List Char :=
  if ¬ (':' ∈ s) then
    "✅【 ".toList ++ to_math_bold digits (pyStrip s) ++ "】".toList
  else
    let head := (split_first ':' s).1
    let body := (split_first ':' s).2
    "✅【 ".toList ++ to_math_bold digits (pyStrip head) ++ "】: ".toList ++ pyLStrip body

/-- `nfkc_clean` / `clean_text` from the batch/GUI files; `nfkc` is the
`unicodedata.normalize NFKC` oracle. -/
def nfkc_clean (nfkc : List Char → List Char) (s : List Char) : List Char :=
  ((((nfkc s).map smart_spaces_sub).filter (fun c => !(isZWBidi c))).filter
    (fun c => !(isCtrl c)))

/-- `transform_line` from `bytecode_batch.py` / the GUI file in
`src/unnamed/part_000` (both guard the falsy empty string first, then clean,
then apply the colon-split stage `bold_wrap`). -/
def transform_line (digits : Bool) (nfkc : List Char → List Char)
    (line : List Char) : List Char :=
  if line = [] then [] else bold_wrap digits (nfkc_clean nfkc line)

/-- Python exceptions surfaced by the embedded functions. -/
inductive PyErr where
  | valueError
  | lookupError
  | unicodeEncodeError
deriving DecidableEq, Repr

/-- Oracle for the `unicodedata` calls (`normalize` and `combining`). -/
structure UnicodeOracle where
  normalize : String → List Char → List Char
  combining : Char → Bool

/-- `preset_plain` from `bytecode_generator.py`. -/
def preset_plain (s : List Char) : List Char := s

/-- `mark_header_bold` from `bytecode_generator.py`: markdown (or strong-tag)
bolding of the part before the first colon, no whitespace handling. -/
def mark_header_bold (s : List Char) (mode : String) : List Char :=
  if ¬ (':' ∈ s) then s
  else
    let head := (split_first ':' s).1
    let tail := (split_first ':' s).2
    if mode = "html" then "<strong>".toList ++ head ++ "</strong>:".toList ++ tail
    else "**".toList ++ head ++ "**:".toList ++ tail

/-- `ascii_fold` from `bytecode_generator.py` (NFKD, drop combining marks, keep
ASCII, degree sign becomes " degrees", drop the rest). -/
def ascii_fold (uni : UnicodeOracle) (s : List Char) : List Char :=
  (uni.normalize "NFKD" s).flatMap (fun ch =>
    if uni.combining ch then []
    else if ch.toNat < 128 then [ch]
    else if ch.toNat = 0xB0 then " degrees".toList
    else [])

/-- `preset_ascii` from `bytecode_generator.py`. -/
def preset_ascii (uni : UnicodeOracle) (s : List Char) : List Char := ascii_fold uni s

/-- Python `html.escape(s, quote=True)`: successive replacements of the five
markup characters. -/
def html_escape (s : List Char) : List Char :=
  let s := s.flatMap (fun c => if c = '&' then "&amp;".toList else [c])
  let s := s.flatMap (fun c => if c = '<' then "&lt;".toList else [c])
  let s := s.flatMap (fun c => if c = '>' then "&gt;".toList else [c])
  let s := s.flatMap (fun c => if c = Char.ofNat 34 then "&quot;".toList else [c])
  s.flatMap (fun c => if c = Char.ofNat 39 then "&#x27;".toList else [c])

/-- `preset_html` from `bytecode_generator.py`. -/
def preset_html (s : List Char) (br : Bool) : List Char :=
  let esc := html_escape s
  if br then esc.flatMap (fun c => if c = '\n' then "<br>\n".toList else [c]) else esc

/-- The `EXCEL_RISKY` leading-character set `{=, +, -, @, tab, CR}`. -/
def excel_risky_lead (c : Char) : Bool :=
  c = '=' || c = '+' || c = '-' || c = '@' || c = '\t' || c = '\r'

/-- `neutralize_excel_cell` from `bytecode_generator.py`. -/
def neutralize_excel_cell (cell : List Char) (strategy : String) : List Char :=
  match cell with
  | [] => []
  | c :: _ =>
    if excel_risky_lead c then
      if strategy = "apostrophe" then Char.ofNat 39 :: cell else ' ' :: cell
    else cell

/-- `csv_quote_cell` from `bytecode_generator.py` (note: the containment test
uses a literal comma, not the configured delimiter). -/
def csv_quote_cell (cell : List Char) (quotechar : Char) : List Char :=
  let need_quote := cell.contains '\n' || cell.contains '\r' || cell.contains quotechar ||
    cell.contains ',' || decide (cell.head? = some ' ') || decide (cell.getLast? = some ' ')
  if need_quote then
    quotechar :: cell.flatMap (fun c => if c = quotechar then [quotechar, quotechar] else [c])
      ++ [quotechar]
  else cell

/-- `preset_csv_row` from `bytecode_generator.py`. -/
def preset_csv_row (values : List (List Char)) (delimiter : List Char)
    (neutralize : Bool) (strategy : String) (quotechar : Char) : List Char :=
  List.intercalate delimiter (values.map (fun v =>
    csv_quote_cell (if neutralize then neutralize_excel_cell v strategy else v) quotechar))

/-- Lowercase hex digit, as produced by Python's `"%04x"` format. -/
def hex_digit (n : Nat) : Char :=
  if n < 10 then Char.ofNat (48 + n) else Char.ofNat (87 + n)

/-- Per-character escaping of Python `json.dumps(s, ensure_ascii=False)`. -/
def json_escape_char (c : Char) : List Char :=
  if c = Char.ofNat 92 then [Char.ofNat 92, Char.ofNat 92]
  else if c = Char.ofNat 34 then [Char.ofNat 92, Char.ofNat 34]
  else if c = Char.ofNat 8 then [Char.ofNat 92, 'b']
  else if c = Char.ofNat 12 then [Char.ofNat 92, 'f']
  else if c = '\n' then [Char.ofNat 92, 'n']
  else if c = '\r' then [Char.ofNat 92, 'r']
  else if c = '\t' then [Char.ofNat 92, 't']
  else if c.toNat < 0x20 then
    [Char.ofNat 92, 'u', '0', '0', hex_digit (c.toNat / 16), hex_digit (c.toNat % 16)]
  else [c]

/-- `preset_json` from `bytecode_generator.py` (a JSON string literal). -/
def preset_json (s : List Char) : List Char :=
  Char.ofNat 34 :: s.flatMap json_escape_char ++ [Char.ofNat 34]

/-- UTF-8 encoding of one Unicode scalar value. -/
def utf8EncodeNat (n : Nat) : List Nat :=
  if n < 0x80 then [n]
  else if n < 0x800 then [0xC0 + n / 0x40, 0x80 + n % 0x40]
  else if n < 0x10000 then [0xE0 + n / 0x1000, 0x80 + n / 0x40 % 0x40, 0x80 + n % 0x40]
  else [0xF0 + n / 0x40000, 0x80 + n / 0x1000 % 0x40, 0x80 + n / 0x40 % 0x40, 0x80 + n % 0x40]

/-- Python `text.encode("utf-8")`. -/
def utf8Encode (s : List Char) : List Nat := s.flatMap (fun c => utf8EncodeNat c.toNat)

/-- Number of continuation bytes expected after UTF-8 lead byte `b`
(5 marks an invalid lead byte). -/
def utf8Need (b : Nat) : Nat :=
  if b < 0x80 then 0
  else if b < 0xC2 then 5
  else if b < 0xE0 then 1
  else if b < 0xF0 then 2
  else if b < 0xF5 then 3
  else 5

/-- Validate a UTF-8 lead byte together with its continuation bytes, returning
the decoded codepoint; rejects stray continuation bytes, overlong forms,
surrogates and out-of-range values. -/
def utf8Val (b : Nat) (conts : List Nat) : Option Nat :=
  if b < 0x80 then
    match conts with
    | [] => some b
    | _ => none
  else if b < 0xC2 then none
  else if b < 0xE0 then
    match conts with
    | [b1] =>
      if 0x80 ≤ b1 ∧ b1 < 0xC0 then some ((b - 0xC0) * 0x40 + (b1 - 0x80)) else none
    | _ => none
  else if b < 0xF0 then
    match conts with
    | [b1, b2] =>
      if 0x80 ≤ b1 ∧ b1 < 0xC0 ∧ 0x80 ≤ b2 ∧ b2 < 0xC0 then
        if (b - 0xE0) * 0x1000 + (b1 - 0x80) * 0x40 + (b2 - 0x80) < 0x800 ∨
            (0xD800 ≤ (b - 0xE0) * 0x1000 + (b1 - 0x80) * 0x40 + (b2 - 0x80) ∧
              (b - 0xE0) * 0x1000 + (b1 - 0x80) * 0x40 + (b2 - 0x80) < 0xE000) then none
        else some ((b - 0xE0) * 0x1000 + (b1 - 0x80) * 0x40 + (b2 - 0x80))
      else none
    | _ => none
  else if b < 0xF5 then
    match conts with
    | [b1, b2, b3] =>
      if 0x80 ≤ b1 ∧ b1 < 0xC0 ∧ 0x80 ≤ b2 ∧ b2 < 0xC0 ∧ 0x80 ≤ b3 ∧ b3 < 0xC0 then
        if (b - 0xF0) * 0x40000 + (b1 - 0x80) * 0x1000 + (b2 - 0x80) * 0x40 +
              (b3 - 0x80) < 0x10000 ∨
            0x110000 ≤ (b - 0xF0) * 0x40000 + (b1 - 0x80) * 0x1000 +
              (b2 - 0x80) * 0x40 + (b3 - 0x80) then none
        else some ((b - 0xF0) * 0x40000 + (b1 - 0x80) * 0x1000 + (b2 - 0x80) * 0x40 +
          (b3 - 0x80))
      else none
    | _ => none
  else none

/-- Strict UTF-8 decoding (Python `bytes.decode("utf-8")`). -/
def utf8Decode : List Nat → Option (List Char)
  | [] => some []
  | b :: bs =>
    match utf8Val b (bs.take (utf8Need b)) with
    | none => none
    | some cp => (utf8Decode (bs.drop (utf8Need b))).map (fun cs => Char.ofNat cp :: cs)
termination_by l => l.length
decreasing_by simp [List.length_drop]; omega

/-- Python codec-name normalization (lowercase, drop hyphens/underscores). -/
def encNorm (e : String) : String := removeChar '_' (removeChar '-' (pyLower e))

/-- Model of Python `text.encode(encoding)` for the codecs this repository can
meet: UTF-8 (total), ASCII and Latin-1 (partial); any other name is a
`LookupError`. -/
def encodeText (encoding : String) (t : List Char) : Except PyErr (List Nat) :=
  if encNorm encoding = "utf8" then .ok (utf8Encode t)
  else if encNorm encoding = "ascii" ∨ encNorm encoding = "usascii" ∨
      encNorm encoding = "646" then
    if t.all (fun c => c.toNat < 128) then .ok (t.map Char.toNat)
    else .error .unicodeEncodeError
  else if encNorm encoding = "latin1" ∨ encNorm encoding = "latin" ∨
      encNorm encoding = "iso88591" ∨ encNorm encoding = "l1" then
    if t.all (fun c => c.toNat < 256) then .ok (t.map Char.toNat)
    else .error .unicodeEncodeError
  else .error .lookupError

/-- Python `s.replace(crlf, lf)` for the two-character CRLF pattern
(left-to-right, non-overlapping). -/
def replace_crlf_with_lf : List Char → List Char
  | [] => []
  | [c] => [c]
  | c1 :: c2 :: rest =>
    if c1 = '\r' ∧ c2 = '\n' then '\n' :: replace_crlf_with_lf rest
    else c1 :: replace_crlf_with_lf (c2 :: rest)

/-- Python `s.replace(cr, lf)`. -/
def replace_cr_with_lf (s : List Char) : List Char :=
  s.map (fun c => if c = '\r' then '\n' else c)

/-- Python `s.replace(lf, crlf)`. -/
def expand_lf_to_crlf (s : List Char) : List Char :=
  s.flatMap (fun c => if c = '\n' then ['\r', '\n'] else [c])

/-- The three-byte UTF-8 byte-order mark. -/
def bomBytes : List Nat := [0xEF, 0xBB, 0xBF]

/-- `finalize_text_bytes` from `bytecode_generator.py`. -/
def finalize_text_bytes (text : List Char) (newline : String) (bom : Bool)
    (encoding : String) : Except PyErr (List Nat) :=
  if pyLower newline = "crlf" ∨ pyLower newline = "lf" then
    let t := replace_cr_with_lf (replace_crlf_with_lf text)
    let t := if pyLower newline = "crlf" then expand_lf_to_crlf t else t
    match encodeText encoding t with
    | .error e => .error e
    | .ok data =>
      .ok (if bom ∧ removeChar '-' (pyLower encoding) = "utf8" then bomBytes ++ data
        else data)
  else .error .valueError

/-- `process_text` from `bytecode_generator.py`, including the statement
`s = mark_header_bold(s, mode)` whose result the source never uses (the
returned text is `out`, computed before that statement). -/
def process_text (uni : UnicodeOracle) (raw : List Char) (mode : String)
    (normalize : String) (replace_smart : Bool) (strip_zw : Bool) (strip_ctrl : Bool)
    (html_br : Bool) (csv_values : Option (List (List Char))) (csv_delim : List Char)
    (csv_neutralize : Bool) (csv_strategy : String) (quotechar : Char)
    : Except PyErr (List Char × Nat × Nat) :=
  let s := normalize_text uni.normalize raw normalize
  let s := if replace_smart then replace_smart_punct s else s
  let res := if strip_zw || strip_ctrl then strip_zero_width_and_controls s else (s, 0, 0)
  let s := res.1
  let zw_count := res.2.1
  let ctrl_count := res.2.2
  let outE : Except PyErr (List Char) :=
    if mode = "plain" then .ok (preset_plain s)
    else if mode = "ascii" then .ok (preset_ascii uni s)
    else if mode = "html" then .ok (preset_html s html_br)
    else if mode = "csv" then
      match csv_values with
      | some vals => .ok (preset_csv_row vals csv_delim csv_neutralize csv_strategy quotechar)
      | none => .ok (preset_csv_row [s] csv_delim csv_neutralize csv_strategy quotechar)
    else if mode = "json" then .ok (preset_json s)
    else .error .valueError
  match outE with
  | .error e => .error e
  | .ok out =>
    let _s := if mode ∈ (["plain", "ascii", "html", "csv", "json"] : List String) then
      mark_header_bold s mode else s
    .ok (out, zw_count, ctrl_count)

/-! ## Helper lemmas -/

theorem toNat_ofNat_valid {n : Nat} (h : n.isValidChar) : (Char.ofNat n).toNat = n := by
  rw [Char.ofNat, dif_pos h]
  rfl

theorem isZWBidi_false_of_isCtrl {c : Char} (h : isCtrl c = true) : isZWBidi c = false := by
  simp only [isCtrl, decide_eq_true_eq] at h
  simp only [isZWBidi, decide_eq_false_iff_not]
  omega

theorem mem_of_mem_pyStrip {c : Char} {l : List Char} (h : c ∈ pyStrip l) : c ∈ l := by
  unfold pyStrip at h
  rw [List.mem_reverse] at h
  have h2 := List.dropWhile_subset (l := (l.dropWhile pyIsSpace).reverse) pyIsSpace h
  rw [List.mem_reverse] at h2
  exact List.dropWhile_subset pyIsSpace h2

theorem bold_char_eq_colon {digits : Bool} {c : Char} (h : bold_char digits c = ':') :
    c = ':' := by
  have hcolon : (':' : Char).toNat = 58 := rfl
  unfold bold_char at h
  split_ifs at h with h1 h2 h3
  · have := congrArg Char.toNat h
    rw [toNat_ofNat_valid (Or.inr ⟨by omega, by omega⟩), hcolon] at this
    exact absurd this (by omega)
  · have := congrArg Char.toNat h
    rw [toNat_ofNat_valid (Or.inr ⟨by omega, by omega⟩), hcolon] at this
    exact absurd this (by omega)
  · have := congrArg Char.toNat h
    rw [toNat_ofNat_valid (Or.inr ⟨by omega, by omega⟩), hcolon] at this
    exact absurd this (by omega)
  · exact h

/-! ## Claims -/

/-- C8: `clean` (the `strip_zero_width_and_controls` stage) removes exactly the
zero-width/BiDi codepoints and the C0/C1 controls other than tab, LF and CR,
keeps everything else in order, and reports the two removal counts. -/
theorem clean_strips_exactly_zw_and_ctrl (s : List Char) :
    (strip_zero_width_and_controls s).1 =
        s.filter (fun c => !(isCtrl c) && !(isZWBidi c)) ∧
    (strip_zero_width_and_controls s).2.1 = s.countP (fun c => isZWBidi c) ∧
    (strip_zero_width_and_controls s).2.2 = s.countP (fun c => isCtrl c) ∧
    (∀ c : Char, isZWBidi c = true ↔ c.toNat ∈ ([0x200B, 0x200C, 0x200D, 0x2060, 0xFEFF,
        0x200E, 0x200F, 0x202A, 0x202B, 0x202C, 0x202D, 0x202E,
        0x2066, 0x2067, 0x2068, 0x2069] : List Nat)) ∧
    (∀ c : Char, isCtrl c = true ↔ ((c.toNat ≤ 0x1F ∨ (0x7F ≤ c.toNat ∧ c.toNat ≤ 0x9F)) ∧
        c.toNat ≠ 9 ∧ c.toNat ≠ 10 ∧ c.toNat ≠ 13)) := by
  refine ⟨?_, ?_, ?_, ?_, ?_⟩
  · simp [strip_zero_width_and_controls, List.filter_filter]
  · show s.length - (s.filter (fun c => !(isZWBidi c))).length = _
    rw [← List.countP_eq_length_filter]
    have h1 := List.length_eq_countP_add_countP (p := fun c => isZWBidi c) (l := s)
    beta_reduce at h1
    have h2 : s.countP (fun c => !(isZWBidi c)) =
        s.countP (fun a => decide ¬(isZWBidi a = true)) :=
      List.countP_congr (fun x _ => by simp)
    omega
  · show (s.filter (fun c => !(isZWBidi c))).length -
        ((s.filter (fun c => !(isZWBidi c))).filter (fun c => !(isCtrl c))).length = _
    have h1 := List.length_eq_countP_add_countP (p := fun c => isCtrl c)
      (l := s.filter (fun c => !(isZWBidi c)))
    beta_reduce at h1
    simp only [← List.countP_eq_length_filter] at h1 ⊢
    have h2 : (s.filter (fun c => !(isZWBidi c))).countP (fun c => !(isCtrl c)) =
        (s.filter (fun c => !(isZWBidi c))).countP
          (fun a => decide ¬(isCtrl a = true)) :=
      List.countP_congr (fun x _ => by simp)
    have h3 : (s.filter (fun c => !(isZWBidi c))).countP (fun c => isCtrl c) =
        s.countP (fun c => isCtrl c) := by
      rw [List.countP_filter]
      refine List.countP_congr (fun x _ => ?_)
      by_cases hx : isCtrl x
      · simp [hx, isZWBidi_false_of_isCtrl hx]
      · simp [hx]
    omega
  · intro c
    simp only [isZWBidi, decide_eq_true_eq, List.mem_cons, List.not_mem_nil, or_false]
    omega
  · intro c
    simp only [isCtrl, decide_eq_true_eq]
    omega

/-- C9 (implicit): an empty cell is returned unchanged by
`neutralize_excel_cell` under every strategy, and csv-renders as an empty,
unquoted field. -/
theorem neutralize_empty_cell (strategy : String) (quotechar : Char) :
    neutralize_excel_cell [] strategy = [] ∧
    csv_quote_cell (neutralize_excel_cell [] strategy) quotechar = [] := by
  constructor
  · rfl
  · rfl

/-- C10 (implicit): `transform_line` on the empty string returns the empty
string (the falsy guard fires before the no-colon wrapper could apply),
whatever the NFKC oracle and bold variant. -/
theorem transform_line_empty (digits : Bool) (nfkc : List Char → List Char) :
    transform_line digits nfkc [] = [] := rfl

/-- C6: a nonempty cell whose first character is in the risky set
`{=, +, -, @, tab, CR}` gets exactly one defusing character under either
strategy, and the concrete scenario: cell `=1+2`, apostrophe strategy, comma
delimiter renders as the unquoted field `'=1+2`. -/
theorem neutralize_risky_cell :
    (∀ (cell : List Char) (strategy : String) (c : Char),
      cell.head? = some c → excel_risky_lead c = true →
      (strategy = "apostrophe" ∨ strategy = "space") →
      neutralize_excel_cell cell strategy =
        (if strategy = "apostrophe" then Char.ofNat 39 else ' ') :: cell) ∧
    preset_csv_row ["=1+2".toList] ",".toList true "apostrophe" (Char.ofNat 34) =
      Char.ofNat 39 :: "=1+2".toList := by
  constructor
  · intro cell strategy c hc hrisky _
    match cell, hc with
    | c :: rest, rfl =>
      show (if excel_risky_lead c then _ else _) = _
      rw [if_pos hrisky]
      by_cases hs : strategy = "apostrophe" <;> simp [hs]
  · decide

/-- Witness for `neutralize_risky_cell`. -/
theorem neutralize_risky_cell_witness :
    neutralize_excel_cell "=1+2".toList "apostrophe" =
      (if "apostrophe" = "apostrophe" then Char.ofNat 39 else ' ') :: "=1+2".toList :=
  neutralize_risky_cell.1 "=1+2".toList "apostrophe" '=' (by decide) (by decide)
    (Or.inl rfl)

/-- C5: for input containing a colon, the wrapped output is the fixed opening
marker, the bolded whitespace-trimmed header, the closing marker followed
immediately by a colon and one space, and then the body with only its leading
whitespace removed; no colon occurs before that point, so the first colon of
the output is the one directly after the closing marker. -/
theorem bold_wrap_colon_shape (digits : Bool) (s : List Char) (h : ':' ∈ s) :
    bold_wrap digits s =
      "✅【 ".toList ++ to_math_bold digits (pyStrip (split_first ':' s).1) ++
        "】: ".toList ++ pyLStrip (split_first ':' s).2 ∧
    ¬ (':' ∈ "✅【 ".toList ++ to_math_bold digits (pyStrip (split_first ':' s).1)) := by
  constructor
  · unfold bold_wrap
    rw [if_neg (not_not_intro h)]
  · intro hmem
    rcases List.mem_append.mp hmem with h1 | h2
    · exact absurd h1 (by decide)
    · obtain ⟨c, hc, hbc⟩ := List.mem_map.mp h2
      have hcc : c = ':' := bold_char_eq_colon hbc
      rw [hcc] at hc
      have h3 : ':' ∈ (split_first ':' s).1 := mem_of_mem_pyStrip hc
      have h4 := List.mem_takeWhile_imp h3
      simp at h4

/-- Witness for `bold_wrap_colon_shape`. -/
theorem bold_wrap_colon_shape_witness :
    (':' ∈ "Title: hello world".toList) ∧
    (bold_wrap true "Title: hello world".toList =
      "✅【 ".toList ++
        to_math_bold true (pyStrip (split_first ':' "Title: hello world".toList).1) ++
        "】: ".toList ++ pyLStrip (split_first ':' "Title: hello world".toList).2 ∧
    ¬ (':' ∈ "✅【 ".toList ++
        to_math_bold true (pyStrip (split_first ':' "Title: hello world".toList).1))) :=
  ⟨by decide, bold_wrap_colon_shape true "Title: hello world".toList (by decide)⟩

/-- C4 counterexample: with the unrecognized normalization form `BOGUS` the
pipeline succeeds (returns `ok`) instead of reporting a configuration error,
and the input passes through untouched. -/
theorem process_text_accepts_bogus_norm_form :
    process_text ⟨fun _ s => s, fun _ => false⟩ "abc".toList "plain" "BOGUS"
        true true true false none ",".toList true "apostrophe" (Char.ofNat 34) =
      .ok ("abc".toList, 0, 0) ∧
    ¬ (pyUpper "BOGUS" = "NFC" ∨ pyUpper "BOGUS" = "NFD" ∨ pyUpper "BOGUS" = "NFKC" ∨
        pyUpper "BOGUS" = "NFKD") := by
  constructor
  · rfl
  · decide

/-- C4 amended: an unrecognized normalization form is silently treated as a
pass-through by `normalize_text` (the normalization oracle is never invoked),
not reported as an error. -/
theorem normalize_text_bogus_form_passthrough
    (norm : String → List Char → List Char) (s : List Char) (form : String)
    (h : ¬ (pyUpper form = "NFC" ∨ pyUpper form = "NFD" ∨ pyUpper form = "NFKC" ∨
      pyUpper form = "NFKD")) :
    normalize_text norm s form = s := by
  unfold normalize_text
  rw [if_neg h]

/-- Witness for `normalize_text_bogus_form_passthrough`. -/
theorem normalize_text_bogus_form_passthrough_witness :
    normalize_text (fun _ s => s) "a".toList "BOGUS" = "a".toList :=
  normalize_text_bogus_form_passthrough (fun _ s => s) "a".toList "BOGUS" (by decide)

/-- C3 counterexample: `finalize` with `bom = true` and the non-UTF-8 encoding
`latin-1` succeeds, producing the bare encoded text with no byte-order mark,
instead of failing with a configuration error. -/
theorem finalize_bom_latin1_succeeds :
    finalize_text_bytes "a".toList "lf" true "latin-1" = .ok [97] ∧
    removeChar '-' (pyLower "latin-1") ≠ "utf8" := by
  constructor
  · rfl
  · decide

/-- C3 amended: with `bom = true` and a UTF-8 encoding the result is exactly
the three-byte BOM prepended to the encoded text; with a non-UTF-8 encoding
the BOM request is silently ignored (no error is raised for it). -/
theorem finalize_bom_behaviour (text : List Char) (newline : String)
    (encoding : String) :
    finalize_text_bytes text newline true encoding =
      (if removeChar '-' (pyLower encoding) = "utf8" then
        Except.map (fun data => bomBytes ++ data)
          (finalize_text_bytes text newline false encoding)
      else finalize_text_bytes text newline false encoding) := by
  unfold finalize_text_bytes
  by_cases hnl : (pyLower newline = "crlf" ∨ pyLower newline = "lf")
  · rw [if_pos hnl, if_pos hnl]
    dsimp only
    set E := encodeText encoding
      (if pyLower newline = "crlf" then
        expand_lf_to_crlf (replace_cr_with_lf (replace_crlf_with_lf text))
      else replace_cr_with_lf (replace_crlf_with_lf text)) with hE
    by_cases henc : removeChar '-' (pyLower encoding) = "utf8"
    · rw [if_pos henc]
      cases E with
      | error e => rfl
      | ok data => simp [henc, Except.map]
    · rw [if_neg henc]
      cases E with
      | error e => rfl
      | ok data => simp [henc]
  · rw [if_neg hnl, if_neg hnl]
    split <;> rfl

/-- C2 counterexample: with the configured delimiter `;`, the cell `a;b`
contains the delimiter yet is rendered completely unquoted — the quoting test
of `csv_quote_cell` hard-codes a comma and ignores the configured delimiter. -/
theorem csv_row_semicolon_delim_unquoted :
    (';' ∈ "a;b".toList) ∧
    preset_csv_row ["a;b".toList] ";".toList true "apostrophe" (Char.ofNat 34) =
      "a;b".toList ∧
    ("a;b".toList).head? ≠ some (Char.ofNat 34) ∧
    ("a;b".toList).getLast? ≠ some (Char.ofNat 34) := by
  refine ⟨by decide, by decide, by decide, by decide⟩

/-- C2 amended: a cell is wrapped in the quote character (with internal quote
characters doubled) if and only if it contains a comma (the literal character,
regardless of the configured delimiter), the quote character, a line feed or a
carriage return, or has a leading or trailing space; in particular a cell
containing a comma renders starting and ending with the quote character. -/
theorem csv_quote_cell_quotes_iff (cell : List Char) (q : Char) :
    ((',' ∈ cell ∨ q ∈ cell ∨ '\n' ∈ cell ∨ '\r' ∈ cell ∨
        cell.head? = some ' ' ∨ cell.getLast? = some ' ') ↔
      csv_quote_cell cell q =
        q :: cell.flatMap (fun c => if c = q then [q, q] else [c]) ++ [q]) ∧
    (',' ∈ cell → (csv_quote_cell cell q).head? = some q ∧
      (csv_quote_cell cell q).getLast? = some q) := by
  have hnb : (cell.contains '\n' || cell.contains '\r' || cell.contains q ||
      cell.contains ',' || decide (cell.head? = some ' ') ||
      decide (cell.getLast? = some ' ')) = true ↔
      (',' ∈ cell ∨ q ∈ cell ∨ '\n' ∈ cell ∨ '\r' ∈ cell ∨
        cell.head? = some ' ' ∨ cell.getLast? = some ' ') := by
    simp [List.contains, Bool.or_eq_true]
    tauto
  have hmain : (',' ∈ cell ∨ q ∈ cell ∨ '\n' ∈ cell ∨ '\r' ∈ cell ∨
      cell.head? = some ' ' ∨ cell.getLast? = some ' ') ↔
      csv_quote_cell cell q =
        q :: cell.flatMap (fun c => if c = q then [q, q] else [c]) ++ [q] := by
    constructor
    · intro hp
      unfold csv_quote_cell
      rw [if_pos (hnb.mpr hp)]
    · intro heq
      by_cases hp : (',' ∈ cell ∨ q ∈ cell ∨ '\n' ∈ cell ∨ '\r' ∈ cell ∨
        cell.head? = some ' ' ∨ cell.getLast? = some ' ')
      · exact hp
      · exfalso
        have hfalse : ¬ ((cell.contains '\n' || cell.contains '\r' || cell.contains q ||
            cell.contains ',' || decide (cell.head? = some ' ') ||
            decide (cell.getLast? = some ' ')) = true) := fun hb => hp (hnb.mp hb)
        have hq : csv_quote_cell cell q = cell := by
          unfold csv_quote_cell
          rw [if_neg hfalse]
        rw [hq] at heq
        exact hp (Or.inr (Or.inl (heq ▸ List.mem_cons_self q _)))
  refine ⟨hmain, fun hc => ?_⟩
  have heq := hmain.mp (Or.inl hc)
  rw [heq]
  constructor
  · rfl
  · exact List.getLast?_concat _

/-- C1: under the default configuration the pipeline returns the input
unchanged — `process_text` computes `out` before the `mark_header_bold` call
and discards that call's result — and `mark_header_bold` itself produces
markdown bolding, not the `✅【 𝐓𝐢𝐭𝐥𝐞】` form of the claim; the wrapped form is
what the sibling `transform_line` stage (`bold_wrap`) produces. -/
theorem process_text_header_bold_dead (uni : UnicodeOracle)
    (h : uni.normalize "NFKC" "Title: hello world".toList =
      "Title: hello world".toList) :
    process_text uni "Title: hello world".toList "plain" "NFKC" true true true false
        none ",".toList true "apostrophe" (Char.ofNat 34) =
      .ok ("Title: hello world".toList, 0, 0) ∧
    "Title: hello world".toList ≠ "✅【 𝐓𝐢𝐭𝐥𝐞】: hello world".toList ∧
    mark_header_bold "Title: hello world".toList "plain" =
      "**Title**: hello world".toList ∧
    bold_wrap true "Title: hello world".toList =
      "✅【 𝐓𝐢𝐭𝐥𝐞】: hello world".toList := by
  refine ⟨?_, by decide, by decide, by decide⟩
  have e : normalize_text uni.normalize "Title: hello world".toList "NFKC" =
      "Title: hello world".toList := by
    unfold normalize_text
    rw [if_pos (by decide)]
    have hu : pyUpper "NFKC" = "NFKC" := by decide
    rw [hu]
    exact h
  unfold process_text
  rw [e]
  rfl

/-- Witness for `process_text_header_bold_dead`. -/
theorem process_text_header_bold_dead_witness :
    process_text ⟨fun _ s => s, fun _ => false⟩ "Title: hello world".toList "plain"
        "NFKC" true true true false none ",".toList true "apostrophe" (Char.ofNat 34) =
      .ok ("Title: hello world".toList, 0, 0) ∧
    "Title: hello world".toList ≠ "✅【 𝐓𝐢𝐭𝐥𝐞】: hello world".toList ∧
    mark_header_bold "Title: hello world".toList "plain" =
      "**Title**: hello world".toList ∧
    bold_wrap true "Title: hello world".toList =
      "✅【 𝐓𝐢𝐭𝐥𝐞】: hello world".toList :=
  process_text_header_bold_dead ⟨fun _ s => s, fun _ => false⟩ rfl

theorem replace_crlf_id {s : List Char} (h : '\r' ∉ s) : replace_crlf_with_lf s = s := by
  induction s with
  | nil => rfl
  | cons c1 l ih =>
    cases l with
    | nil => rfl
    | cons c2 rest =>
      have hc1 : c1 ≠ '\r' := fun hc => h (hc ▸ List.mem_cons_self c1 (c2 :: rest))
      have htl : '\r' ∉ (c2 :: rest) := fun hm => h (List.mem_cons_of_mem c1 hm)
      show (if c1 = '\r' ∧ c2 = '\n' then _ else c1 :: replace_crlf_with_lf (c2 :: rest)) = _
      rw [if_neg (fun hand => hc1 hand.1), ih htl]

theorem replace_cr_id {s : List Char} (h : '\r' ∉ s) : replace_cr_with_lf s = s := by
  unfold replace_cr_with_lf
  induction s with
  | nil => rfl
  | cons c l ih =>
    have hc : c ≠ '\r' := fun hc => h (hc ▸ List.mem_cons_self c l)
    have htl : '\r' ∉ l := fun hm => h (List.mem_cons_of_mem c hm)
    simp only [List.map_cons]
    rw [if_neg hc, ih htl]

theorem utf8Decode_encodeNat_append (n : Nat)
    (hv : n < 0xD800 ∨ (0xDFFF < n ∧ n < 0x110000)) (rest : List Nat) :
    utf8Decode (utf8EncodeNat n ++ rest) =
      (utf8Decode rest).map (fun cs => Char.ofNat n :: cs) := by
  unfold utf8EncodeNat
  by_cases h1 : n < 0x80
  · rw [if_pos h1]
    show utf8Decode (n :: rest) = _
    rw [utf8Decode.eq_def]
    have hk : utf8Need n = 0 := by unfold utf8Need; rw [if_pos h1]
    have hval : utf8Val n (List.take 0 rest) = some n := by
      unfold utf8Val; rw [if_pos h1, List.take_zero]
    simp only [hk, hval, List.drop_zero]
  · rw [if_neg h1]
    by_cases h2 : n < 0x800
    · rw [if_pos h2]
      have hk : utf8Need (0xC0 + n / 0x40) = 1 := by
        unfold utf8Need; rw [if_neg (by omega), if_neg (by omega), if_pos (by omega)]
      have hval : utf8Val (0xC0 + n / 0x40) [0x80 + n % 0x40] = some n := by
        unfold utf8Val
        rw [if_neg (by omega), if_neg (by omega), if_pos (by omega)]
        show (if 0x80 ≤ 0x80 + n % 0x40 ∧ 0x80 + n % 0x40 < 0xC0 then
          some ((0xC0 + n / 0x40 - 0xC0) * 0x40 + (0x80 + n % 0x40 - 0x80))
          else none) = some n
        rw [if_pos ⟨by omega, by omega⟩]
        exact congrArg some (by omega)
      show utf8Decode ((0xC0 + n / 0x40) :: (0x80 + n % 0x40) :: rest) = _
      rw [utf8Decode.eq_def]
      simp only [hk, List.take_succ_cons, List.take_zero, List.drop_succ_cons,
        List.drop_zero, hval]
    · rw [if_neg h2]
      by_cases h3 : n < 0x10000
      · rw [if_pos h3]
        have hk : utf8Need (0xE0 + n / 0x1000) = 2 := by
          unfold utf8Need
          rw [if_neg (by omega), if_neg (by omega), if_neg (by omega), if_pos (by omega)]
        have hval : utf8Val (0xE0 + n / 0x1000)
            [0x80 + n / 0x40 % 0x40, 0x80 + n % 0x40] = some n := by
          unfold utf8Val
          rw [if_neg (by omega), if_neg (by omega), if_neg (by omega), if_pos (by omega)]
          show (if 0x80 ≤ 0x80 + n / 0x40 % 0x40 ∧ 0x80 + n / 0x40 % 0x40 < 0xC0 ∧
              0x80 ≤ 0x80 + n % 0x40 ∧ 0x80 + n % 0x40 < 0xC0 then
            if (0xE0 + n / 0x1000 - 0xE0) * 0x1000 +
                (0x80 + n / 0x40 % 0x40 - 0x80) * 0x40 + (0x80 + n % 0x40 - 0x80) < 0x800 ∨
                (0xD800 ≤ (0xE0 + n / 0x1000 - 0xE0) * 0x1000 +
                  (0x80 + n / 0x40 % 0x40 - 0x80) * 0x40 + (0x80 + n % 0x40 - 0x80) ∧
                  (0xE0 + n / 0x1000 - 0xE0) * 0x1000 +
                  (0x80 + n / 0x40 % 0x40 - 0x80) * 0x40 + (0x80 + n % 0x40 - 0x80) < 0xE000)
            then none
            else some ((0xE0 + n / 0x1000 - 0xE0) * 0x1000 +
              (0x80 + n / 0x40 % 0x40 - 0x80) * 0x40 + (0x80 + n % 0x40 - 0x80))
            else none) = some n
          rw [if_pos ⟨by omega, by omega, by omega, by omega⟩, if_neg (by omega)]
          exact congrArg some (by omega)
        show utf8Decode ((0xE0 + n / 0x1000) :: (0x80 + n / 0x40 % 0x40) ::
          (0x80 + n % 0x40) :: rest) = _
        rw [utf8Decode.eq_def]
        simp only [hk, List.take_succ_cons, List.take_zero, List.drop_succ_cons,
          List.drop_zero, hval]
      · rw [if_neg h3]
        have h4 : n < 0x110000 := by omega
        have hk : utf8Need (0xF0 + n / 0x40000) = 3 := by
          unfold utf8Need
          rw [if_neg (by omega), if_neg (by omega), if_neg (by omega), if_neg (by omega),
            if_pos (by omega)]
        have hval : utf8Val (0xF0 + n / 0x40000)
            [0x80 + n / 0x1000 % 0x40, 0x80 + n / 0x40 % 0x40, 0x80 + n % 0x40] = some n := by
          unfold utf8Val
          rw [if_neg (by omega), if_neg (by omega), if_neg (by omega), if_neg (by omega),
            if_pos (by omega)]
          show (if 0x80 ≤ 0x80 + n / 0x1000 % 0x40 ∧ 0x80 + n / 0x1000 % 0x40 < 0xC0 ∧
              0x80 ≤ 0x80 + n / 0x40 % 0x40 ∧ 0x80 + n / 0x40 % 0x40 < 0xC0 ∧
              0x80 ≤ 0x80 + n % 0x40 ∧ 0x80 + n % 0x40 < 0xC0 then
            if (0xF0 + n / 0x40000 - 0xF0) * 0x40000 +
                (0x80 + n / 0x1000 % 0x40 - 0x80) * 0x1000 +
                (0x80 + n / 0x40 % 0x40 - 0x80) * 0x40 + (0x80 + n % 0x40 - 0x80) < 0x10000 ∨
                0x110000 ≤ (0xF0 + n / 0x40000 - 0xF0) * 0x40000 +
                (0x80 + n / 0x1000 % 0x40 - 0x80) * 0x1000 +
                (0x80 + n / 0x40 % 0x40 - 0x80) * 0x40 + (0x80 + n % 0x40 - 0x80)
            then none
            else some ((0xF0 + n / 0x40000 - 0xF0) * 0x40000 +
              (0x80 + n / 0x1000 % 0x40 - 0x80) * 0x1000 +
              (0x80 + n / 0x40 % 0x40 - 0x80) * 0x40 + (0x80 + n % 0x40 - 0x80))
            else none) = some n
          rw [if_pos ⟨by omega, by omega, by omega, by omega, by omega, by omega⟩,
            if_neg (by omega)]
          exact congrArg some (by omega)
        show utf8Decode ((0xF0 + n / 0x40000) :: (0x80 + n / 0x1000 % 0x40) ::
          (0x80 + n / 0x40 % 0x40) :: (0x80 + n % 0x40) :: rest) = _
        rw [utf8Decode.eq_def]
        simp only [hk, List.take_succ_cons, List.take_zero, List.drop_succ_cons,
          List.drop_zero, hval]

theorem utf8Decode_utf8Encode (s : List Char) : utf8Decode (utf8Encode s) = some s := by
  induction s with
  | nil =>
    show utf8Decode [] = some []
    rw [utf8Decode.eq_def]
  | cons c cs ih =>
    have hv : c.toNat < 0xD800 ∨ (0xDFFF < c.toNat ∧ c.toNat < 0x110000) := c.valid
    show utf8Decode (utf8EncodeNat c.toNat ++ utf8Encode cs) = _
    rw [utf8Decode_encodeNat_append c.toNat hv, ih]
    simp

/-- C7: with `newline = lf`, `encoding = utf-8` and no BOM, finalization of a
carriage-return-free text is exactly its UTF-8 encoding, and decoding those
bytes as UTF-8 reproduces the text exactly. -/
theorem finalize_lf_utf8_roundtrip (text : List Char) (h : '\r' ∉ text) :
    finalize_text_bytes text "lf" false "utf-8" = .ok (utf8Encode text) ∧
    utf8Decode (utf8Encode text) = some text := by
  refine ⟨?_, utf8Decode_utf8Encode text⟩
  unfold finalize_text_bytes
  rw [if_pos (by decide : pyLower "lf" = "crlf" ∨ pyLower "lf" = "lf")]
  dsimp only
  rw [if_neg (by decide : ¬ pyLower "lf" = "crlf"), replace_crlf_id h, replace_cr_id h]
  rfl

/-- Witness for `finalize_lf_utf8_roundtrip`. -/
theorem finalize_lf_utf8_roundtrip_witness :
    finalize_text_bytes "ab".toList "lf" false "utf-8" = .ok (utf8Encode "ab".toList) ∧
    utf8Decode (utf8Encode "ab".toList) = some "ab".toList :=
  finalize_lf_utf8_roundtrip "ab".toList (by decide)

/-- Witness for `csv_quote_cell_quotes_iff`. -/
theorem csv_quote_cell_quotes_iff_witness :
    (csv_quote_cell "a,b".toList (Char.ofNat 34)).head? = some (Char.ofNat 34) ∧
    (csv_quote_cell "a,b".toList (Char.ofNat 34)).getLast? = some (Char.ofNat 34) :=
  (csv_quote_cell_quotes_iff "a,b".toList (Char.ofNat 34)).2 (by decide)
